import Mathlib

/-!
# Jewel trading bot — formal model of the signal-and-risk engine

A shallow embedding of the core trading logic of the Jewel repository:

* `MicroStrategy` (src/strategies/micro_strategy.py): account state,
  `buy_position`, `sell_position`, `evaluate_orders`, the `open_long`
  entry-signal rule of `populate_signals`, and the forward/backward fill
  of indicator columns in `populate_indicators`.
* `TradingGame.execute_game_logic` (src/trading_game.py): the per-tick
  driver with its recovery-mode override.
* `LiveTrader` (live_trading/live_trader.py): `_check_risk_limits`,
  `run_trading_loop`, `_execute_buy`, `_execute_sell`.

Prices, balances and holdings are Python floats in the source; they are
modelled as rationals (`ℚ`), so all statements are about the exact
real-number semantics of the arithmetic the code performs.
-/

namespace Jewel

/-- Position state of the account.  The source has no explicit field for
this: `MicroStrategy.evaluate_orders` decides which branch to take by
testing `self.btc_holdings > 0`, so LONG is exactly that test. -/
inductive PositionState where
  | FLAT
  | LONG
deriving DecidableEq

/-- The mutable account state owned by `MicroStrategy`
(src/strategies/micro_strategy.py): `self.balance`, `self.btc_holdings`,
`self.trade_amount`, `self.last_buy_price`, `self.fee`. -/
structure MicroState where
  balance : ℚ
  btc_holdings : ℚ
  trade_amount : ℚ
  last_buy_price : ℚ
  fee : ℚ
deriving DecidableEq

/-- `self.take_profit_threshold = 1.025` (micro_strategy.py line 41). -/
def take_profit_threshold : ℚ := 1025 / 1000

/-- `self.stop_loss_threshold = 0.985` (micro_strategy.py line 42). -/
def stop_loss_threshold : ℚ := 985 / 1000

/-- A committed trade, as reported by the strategy's log lines: the
amount of BTC transacted and the fill price. -/
inductive Trade where
  | buy (amount price : ℚ)
  | sell (amount price : ℚ)
deriving DecidableEq

/-- Whether a trade is a buy. -/
def Trade.isBuy : Trade → Bool
  | .buy _ _ => true
  | .sell _ _ => false

/-- Whether a trade is a sell. -/
def Trade.isSell : Trade → Bool
  | .buy _ _ => false
  | .sell _ _ => true

/-- `MicroStrategy.buy_position` (micro_strategy.py lines 176-186).
Rejects when `self.balance <= 0 or price <= 0`, returning the state
unchanged and recording no trade; otherwise buys
`(self.trade_amount / price) * (1 - self.fee)` BTC, debits the trade
amount from the cash balance and records the entry price. -/
def buy_position (s : MicroState) (price : ℚ) : MicroState × Option Trade :=
  if s.balance ≤ 0 ∨ price ≤ 0 then (s, none)
  else
    let btc_bought := s.trade_amount / price * (1 - s.fee)
    ({ s with
        btc_holdings := s.btc_holdings + btc_bought
        balance := s.balance - s.trade_amount
        last_buy_price := price },
      some (.buy btc_bought price))

/-- `MicroStrategy.sell_position` (micro_strategy.py lines 188-203).
Rejects when `self.btc_holdings <= 0 or price <= 0`; otherwise credits
`self.btc_holdings * price * (1 - self.fee)` to the cash balance and
zeroes the holdings.  Note that the source never resets
`self.last_buy_price` here. -/
def sell_position (s : MicroState) (price : ℚ) : MicroState × Option Trade :=
  if s.btc_holdings ≤ 0 ∨ price ≤ 0 then (s, none)
  else
    ({ s with
        balance := s.balance + s.btc_holdings * price * (1 - s.fee)
        btc_holdings := 0 },
      some (.sell s.btc_holdings price))

/-- The fields of `latest_row` that `MicroStrategy.evaluate_orders`
reads: the close price and the two boolean signal columns. -/
structure Row where
  close : ℚ
  open_long : Bool
  close_long : Bool
deriving DecidableEq

/-- `MicroStrategy.evaluate_orders` (micro_strategy.py lines 135-174).
Updates `self.trade_amount = min(self.balance * 0.95, self.balance)`,
then: with an open position (`btc_holdings > 0`) checks take-profit,
stop-loss and the `close_long` signal in that order, selling at the
current price and returning after the first hit; otherwise, when flat,
buys if `self.balance >= 10` and the `open_long` signal is set.  The
returned list collects the trades committed during the call. -/
def evaluate_orders (s0 : MicroState) (latest_row : Row) : MicroState × List Trade :=
  let current_price := latest_row.close
  let s : MicroState := { s0 with trade_amount := min (s0.balance * (95 / 100)) s0.balance }
  if 0 < s.btc_holdings then
    let entry_price := if 0 < s.last_buy_price then s.last_buy_price else current_price
    if entry_price * take_profit_threshold ≤ current_price then
      let r := sell_position s current_price
      (r.1, r.2.toList)
    else if current_price ≤ entry_price * stop_loss_threshold then
      let r := sell_position s current_price
      (r.1, r.2.toList)
    else if latest_row.close_long then
      let r := sell_position s current_price
      (r.1, r.2.toList)
    else (s, [])
  else if 10 ≤ s.balance ∧ latest_row.open_long then
    let r := buy_position s current_price
    (r.1, r.2.toList)
  else (s, [])

/-- The position state as the code observes it: the branch condition
`if self.btc_holdings > 0` in `evaluate_orders`. -/
def position_state (s : MicroState) : PositionState :=
  if 0 < s.btc_holdings then .LONG else .FLAT

/-- The per-tick inputs of `TradingGame.execute_game_logic`
(src/trading_game.py): the updated BTC price and the two signal
booleans the strategy computed for the latest candle. -/
structure GameTick where
  btc_price : ℚ
  open_long : Bool
  close_long : Bool
deriving DecidableEq

/-- The trading decision of `TradingGame.execute_game_logic`
(src/trading_game.py lines 276-294).  When the strategy balance has
fallen below `starting_balance * 0.95` the recovery policy overrides
the signals: an open position is sold at
`max(btc_price, last_buy_price * 1.03)`, otherwise (with at least $10)
a buy of 95% of the balance is forced at the current price.  When not
in recovery the normal `evaluate_orders` runs. -/
def execute_game_logic (starting_balance : ℚ) (s : MicroState) (t : GameTick) :
    MicroState × List Trade :=
  if s.balance < starting_balance * (95 / 100) then
    if 0 < s.btc_holdings then
      let sell_price := max t.btc_price (s.last_buy_price * (103 / 100))
      let r := sell_position s sell_price
      (r.1, r.2.toList)
    else if 10 ≤ s.balance then
      let s' : MicroState := { s with trade_amount := s.balance * (95 / 100) }
      let r := buy_position s' t.btc_price
      (r.1, r.2.toList)
    else (s, [])
  else
    evaluate_orders s { close := t.btc_price, open_long := t.open_long, close_long := t.close_long }

/-- A whole session of game ticks: `execute_game_logic` folded over the
tick inputs, threading the strategy state. -/
def game_run (starting_balance : ℚ) (s : MicroState) (ts : List GameTick) : MicroState :=
  ts.foldl (fun st t => (execute_game_logic starting_balance st t).1) s

/-- One row of the indicator columns that `MicroStrategy.populate_signals`
reads (micro_strategy.py lines 86-97): close price, fast/slow moving
averages, RSI oscillator, MACD value and its signal line, volatility
bands, and the stochastic %K/%D pair. -/
structure IndRow where
  close : ℚ
  fastMA : ℚ
  slowMA : ℚ
  RSI : ℚ
  MACD : ℚ
  MACD_signal : ℚ
  upper_band : ℚ
  middle_band : ℚ
  lower_band : ℚ
  stoch_k : ℚ
  stoch_d : ℚ
deriving DecidableEq

/-- The `open_long` entry rule of `MicroStrategy.populate_signals`
(micro_strategy.py lines 86-97), evaluated on one row of the data
frame: the disjunction of the five entry conditions the source computes
column-wise. -/
def open_long_signal (r : IndRow) : Bool :=
  (decide (r.slowMA < r.fastMA) && decide (r.RSI < 52))
  || (decide (r.MACD_signal * (11 / 10) < r.MACD) && decide (r.RSI < 55))
  || (decide (r.RSI < 35) && decide (r.MACD_signal < r.MACD))
  || (decide (r.close < r.lower_band * (101 / 100)) && decide (r.stoch_k < 30))
  || (decide (r.stoch_k < 30) && decide (r.stoch_d < r.stoch_k))

/-- The entry rule as the specification words it: open_long holds iff at
least one of the five disjuncts holds.  Stated independently of
`open_long_signal` so the two can be compared. -/
def open_long_spec (r : IndRow) : Prop :=
  (r.fastMA > r.slowMA ∧ r.RSI < 52) ∨
  (r.MACD > r.MACD_signal * (11 / 10) ∧ r.RSI < 55) ∨
  (r.RSI < 35 ∧ r.MACD > r.MACD_signal) ∨
  (r.close < r.lower_band * (101 / 100) ∧ r.stoch_k < 30) ∨
  (r.stoch_k < 30 ∧ r.stoch_k > r.stoch_d)

/-- The state of `LiveTrader` (live_trading/live_trader.py) relevant to
risk gating and order execution: the wrapped strategy state,
`self.trades_today`, `self.max_daily_trades`, `self.start_balance`,
the configured `max_daily_drawdown_percent`, and the
`trading_enabled` flag. -/
structure LiveState where
  strategy : MicroState
  trades_today : ℕ
  max_daily_trades : ℕ
  start_balance : ℚ
  max_daily_drawdown_percent : ℚ
  trading_enabled : Bool
deriving DecidableEq

/-- The external inputs one iteration of `LiveTrader.run_trading_loop`
consumes: the balance the exchange reports during the risk check, the
price returned by `update_price_data` (`none` models a failed update;
the loop also treats a price of `0` as falsy and skips), the two
signals computed for the latest candle, and whether the exchange
accepts the market order. -/
structure LiveTick where
  exchange_balance : ℚ
  price : Option ℚ
  buy_signal : Bool
  sell_signal : Bool
  order_ok : Bool
deriving DecidableEq

/-- `LiveTrader._check_risk_limits` (live_trader.py lines 189-206):
`False` when `self.trades_today >= self.max_daily_trades`, or when
`((current_balance / starting_balance) - 1) * 100` is at or below
`-abs(max_daily_drawdown_percent)`; `True` otherwise.
`current_balance` is freshly read from the exchange. -/
def check_risk_limits (s : LiveState) (current_balance : ℚ) : Bool :=
  if s.max_daily_trades ≤ s.trades_today then false
  else if (current_balance / s.start_balance - 1) * 100 ≤ -|s.max_daily_drawdown_percent| then
    false
  else true

/-- `LiveTrader._execute_buy` (live_trader.py lines 256-283): a no-op
when trading is disabled; otherwise places the order and, when the
exchange accepts it, commits `strategy.buy_position(price)` and
increments `self.trades_today`. -/
def execute_buy (s : LiveState) (price : ℚ) (order_ok : Bool) : LiveState × Option Trade :=
  if ¬ s.trading_enabled then (s, none)
  else if order_ok then
    let r := buy_position s.strategy price
    ({ s with strategy := r.1, trades_today := s.trades_today + 1 }, r.2)
  else (s, none)

/-- `LiveTrader._execute_sell` (live_trader.py lines 285-309): a no-op
when trading is disabled; otherwise places the order and, when the
exchange accepts it, commits `strategy.sell_position(price)` and
increments `self.trades_today`. -/
def execute_sell (s : LiveState) (price : ℚ) (order_ok : Bool) : LiveState × Option Trade :=
  if ¬ s.trading_enabled then (s, none)
  else if order_ok then
    let r := sell_position s.strategy price
    ({ s with strategy := r.1, trades_today := s.trades_today + 1 }, r.2)
  else (s, none)

/-- What one iteration of the live loop did. -/
inductive LiveOutcome where
  | paused
  | skipped
  | traded (t : Trade)
  | idle
deriving DecidableEq

/-- One iteration of `LiveTrader.run_trading_loop` (live_trader.py
lines 213-248).  A failed risk check pauses the iteration (the source
sleeps 300 seconds and `continue`s, touching no state); a missing or
falsy price skips the cycle; otherwise a sell executes when holding
with a sell signal, else a buy when `balance > 10` with a buy
signal. -/
def live_step (s : LiveState) (t : LiveTick) : LiveState × LiveOutcome :=
  if ¬ check_risk_limits s t.exchange_balance then (s, .paused)
  else
    match t.price with
    | none => (s, .skipped)
    | some p =>
      if p = 0 then (s, .skipped)
      else if 0 < s.strategy.btc_holdings ∧ t.sell_signal then
        let r := execute_sell s p t.order_ok
        (r.1, match r.2 with | some tr => .traded tr | none => .idle)
      else if 10 < s.strategy.balance ∧ t.buy_signal then
        let r := execute_buy s p t.order_ok
        (r.1, match r.2 with | some tr => .traded tr | none => .idle)
      else (s, .idle)

/-- The live trading loop folded over a list of tick inputs: the
`while True` of `run_trading_loop`, which never exits on a paused or
skipped iteration but proceeds to the next cycle. -/
def live_run (s : LiveState) (ts : List LiveTick) : LiveState :=
  ts.foldl (fun st t => (live_step st t).1) s

/-- `talib_polyfill.SMA` (src/strategies/talib_polyfill.py lines 8-10):
`pd.Series(data).rolling(window=timeperiod).mean()`.  Index `i` holds
the mean of the last `timeperiod` values when at least that many have
been seen, and is undefined (`none`, pandas `NaN`) before the first
full lookback window. -/
def SMA (timeperiod : ℕ) (data : List ℚ) : List (Option ℚ) :=
  (List.range data.length).map fun i =>
    if timeperiod ≤ i + 1 then
      some (((data.take (i + 1)).drop (i + 1 - timeperiod)).sum / timeperiod)
    else none

/-- Forward fill threading the last seen value, the recursion behind
pandas `Series.ffill`: an undefined entry takes the most recent defined
value before it, if any. -/
def ffillFrom : Option ℚ → List (Option ℚ) → List (Option ℚ)
  | _, [] => []
  | acc, none :: rest => acc :: ffillFrom acc rest
  | _, some v :: rest => some v :: ffillFrom (some v) rest

/-- `Series.ffill` as used in `MicroStrategy.populate_indicators`
(micro_strategy.py lines 75-77). -/
def ffill (xs : List (Option ℚ)) : List (Option ℚ) :=
  ffillFrom none xs

/-- `Series.bfill` as used in `MicroStrategy.populate_indicators`
(micro_strategy.py lines 79-81): an undefined entry takes the next
defined value after it, if any — forward fill run on the reversed
series. -/
def bfill (xs : List (Option ℚ)) : List (Option ℚ) :=
  (ffillFrom none xs.reverse).reverse

/-- An indicator column as `populate_indicators` hands it to the signal
engine: the rolling indicator over the close series, forward filled and
then backward filled (micro_strategy.py lines 75-81). -/
def backfilled_indicator (timeperiod : ℕ) (closes : List ℚ) : List (Option ℚ) :=
  bfill (ffill (SMA timeperiod closes))

/-- A concrete live-trader state: $1000, flat, `trade_amount` 950 as
set by the `MicroStrategy` constructor (`balance * 0.95`), fee 0.1%,
10 daily trades allowed, 5% drawdown limit, trading enabled. -/
def pyramidingState : LiveState :=
  ⟨⟨1000, 0, 950, 0, 1 / 1000⟩, 0, 10, 1000, 5, true⟩

/-- A concrete live tick: exchange reports $1000, price 100, a buy
signal with no sell signal, and the exchange accepts orders. -/
def pyramidingTick : LiveTick :=
  ⟨1000, some 100, true, false, true⟩

/-! ## Helper lemmas -/

/-- The derived position state is LONG exactly when the holdings are
strictly positive. -/
theorem position_state_eq_LONG_iff (s : MicroState) :
    position_state s = .LONG ↔ 0 < s.btc_holdings := by
  unfold position_state
  split_ifs with h
  · simp [h]
  · simp [h]

/-- `buy_position` keeps cash and holdings nonnegative whenever the
trade amount is between zero and the available balance, and never
touches the fee. -/
theorem buy_position_invariant (s : MicroState) (price : ℚ)
    (hb : 0 ≤ s.balance) (hh : 0 ≤ s.btc_holdings)
    (hta0 : 0 ≤ s.trade_amount) (hta1 : s.trade_amount ≤ s.balance)
    (hf : s.fee ≤ 1) :
    0 ≤ (buy_position s price).1.balance ∧
      0 ≤ (buy_position s price).1.btc_holdings ∧
      (buy_position s price).1.fee = s.fee := by
  unfold buy_position
  split_ifs with hrej
  · exact ⟨hb, hh, rfl⟩
  · push_neg at hrej
    refine ⟨by dsimp; linarith, ?_, rfl⟩
    dsimp
    have hp : 0 < price := hrej.2
    have h1 : 0 ≤ s.trade_amount / price := div_nonneg hta0 hp.le
    have h2 : 0 ≤ (1 : ℚ) - s.fee := by linarith
    nlinarith

/-- `sell_position` keeps cash and holdings nonnegative whenever the
fee does not exceed 100%, and never touches the fee. -/
theorem sell_position_invariant (s : MicroState) (price : ℚ)
    (hb : 0 ≤ s.balance) (hh : 0 ≤ s.btc_holdings) (hf : s.fee ≤ 1) :
    0 ≤ (sell_position s price).1.balance ∧
      0 ≤ (sell_position s price).1.btc_holdings ∧
      (sell_position s price).1.fee = s.fee := by
  unfold sell_position
  split_ifs with hrej
  · exact ⟨hb, hh, rfl⟩
  · push_neg at hrej
    refine ⟨?_, le_refl 0, rfl⟩
    dsimp
    have h2 : 0 ≤ (1 : ℚ) - s.fee := by linarith
    nlinarith [mul_nonneg (mul_nonneg hrej.1.le hrej.2.le) h2]

/-- One call of `evaluate_orders` preserves nonnegative cash and
holdings and leaves the fee alone. -/
theorem evaluate_orders_invariant (s : MicroState) (row : Row)
    (hb : 0 ≤ s.balance) (hh : 0 ≤ s.btc_holdings) (hf : s.fee ≤ 1) :
    0 ≤ (evaluate_orders s row).1.balance ∧
      0 ≤ (evaluate_orders s row).1.btc_holdings ∧
      (evaluate_orders s row).1.fee = s.fee := by
  have hta0 : 0 ≤ min (s.balance * (95 / 100)) s.balance :=
    le_min (mul_nonneg hb (by norm_num)) hb
  have hsell := sell_position_invariant
    { s with trade_amount := min (s.balance * (95 / 100)) s.balance } row.close hb hh hf
  have hbuy := buy_position_invariant
    { s with trade_amount := min (s.balance * (95 / 100)) s.balance } row.close hb hh hta0
    (min_le_right _ _) hf
  unfold evaluate_orders
  dsimp only
  split_ifs <;>
    first
      | exact ⟨hb, hh, rfl⟩
      | exact hsell
      | exact hbuy

/-- One tick of the game driver preserves nonnegative cash and
holdings and leaves the fee alone, through both the recovery override
and the normal signal path. -/
theorem execute_game_logic_invariant (sb : ℚ) (s : MicroState) (t : GameTick)
    (hb : 0 ≤ s.balance) (hh : 0 ≤ s.btc_holdings) (hf : s.fee ≤ 1) :
    0 ≤ (execute_game_logic sb s t).1.balance ∧
      0 ≤ (execute_game_logic sb s t).1.btc_holdings ∧
      (execute_game_logic sb s t).1.fee = s.fee := by
  have hsell := sell_position_invariant s
    (max t.btc_price (s.last_buy_price * (103 / 100))) hb hh hf
  have hbuy := buy_position_invariant
    { s with trade_amount := s.balance * (95 / 100) } t.btc_price hb hh
    (mul_nonneg hb (by norm_num)) (by dsimp only; linarith) hf
  have heval := evaluate_orders_invariant s
    { close := t.btc_price, open_long := t.open_long, close_long := t.close_long } hb hh hf
  unfold execute_game_logic
  dsimp only
  split_ifs <;>
    first
      | exact ⟨hb, hh, rfl⟩
      | exact hsell
      | exact hbuy
      | exact heval

/-- A trade list produced from an optional trade holds at most one
trade. -/
theorem toList_length_le_one (o : Option Trade) : o.toList.length ≤ 1 := by
  cases o <;> simp [Option.toList]

/-- Every trade `buy_position` reports is a buy. -/
theorem buy_position_trades_isBuy (s : MicroState) (p : ℚ) :
    ∀ t ∈ (buy_position s p).2.toList, t.isBuy = true := by
  unfold buy_position
  split_ifs <;> simp_all [Option.toList, Trade.isBuy]

/-- Every trade `sell_position` reports is a sell. -/
theorem sell_position_trades_isSell (s : MicroState) (p : ℚ) :
    ∀ t ∈ (sell_position s p).2.toList, t.isSell = true := by
  unfold sell_position
  split_ifs <;> simp_all [Option.toList, Trade.isSell]

/-- A failed risk check makes the live loop iteration pause with the
state untouched. -/
theorem live_step_of_check_false (s : LiveState) (t : LiveTick)
    (hc : check_risk_limits s t.exchange_balance = false) :
    live_step s t = (s, .paused) := by
  unfold live_step
  rw [hc]
  simp

/-- A passing risk check never produces a paused iteration. -/
theorem live_step_not_paused_of_check_true (s : LiveState) (t : LiveTick)
    (hc : check_risk_limits s t.exchange_balance = true) :
    (live_step s t).2 ≠ .paused := by
  unfold live_step
  rw [hc]
  simp only [Bool.true_eq_false, not_true_eq_false, if_false, ne_eq]
  cases t.price with
  | none => simp
  | some p =>
    dsimp only
    split_ifs <;>
      cases hs : (execute_sell s p t.order_ok).2 <;>
        cases hb : (execute_buy s p t.order_ok).2 <;>
          simp [hs, hb]

/-- Forward fill carries the accumulator across a block of undefined
entries. -/
theorem ffillFrom_replicate_none_append (k : ℕ) (acc : Option ℚ) (l : List (Option ℚ)) :
    ffillFrom acc (List.replicate k none ++ l) = List.replicate k acc ++ ffillFrom acc l := by
  induction k with
  | zero => simp
  | succ k ih => simp [List.replicate_succ, ffillFrom, ih]

/-- Forward fill leaves a block of defined entries unchanged. -/
theorem ffillFrom_map_some (acc : Option ℚ) (vs : List ℚ) :
    ffillFrom acc (vs.map some) = vs.map some := by
  induction vs generalizing acc with
  | nil => simp [ffillFrom]
  | cons v vs ih => simp [ffillFrom, ih]

/-- Forward fill passes a defined block and continues carrying the last
defined value it saw. -/
theorem ffillFrom_somes_mid (acc : Option ℚ) (vs : List ℚ) (w : ℚ) (l : List (Option ℚ)) :
    ffillFrom acc (vs.map some ++ some w :: l)
      = vs.map some ++ some w :: ffillFrom (some w) l := by
  induction vs generalizing acc with
  | nil => simp [ffillFrom]
  | cons v vs ih => simp [ffillFrom, ih]

/-- Forward fill is the identity on a series whose undefined entries
all come before the first defined one. -/
theorem ffill_replicate_none_somes (k : ℕ) (vs : List ℚ) :
    ffill (List.replicate k none ++ vs.map some) = List.replicate k none ++ vs.map some := by
  unfold ffill
  rw [ffillFrom_replicate_none_append, ffillFrom_map_some]

/-- Backward fill replaces the leading undefined block with the first
defined value of the series. -/
theorem bfill_replicate_none_somes (k : ℕ) (v : ℚ) (vs : List ℚ) :
    bfill (List.replicate k none ++ (v :: vs).map some)
      = List.replicate k (some v) ++ (v :: vs).map some := by
  have hrev : (List.replicate k none ++ (v :: vs).map some).reverse
      = vs.reverse.map some ++ some v :: List.replicate k none := by
    simp [List.reverse_append, List.reverse_cons, List.map_reverse, List.append_assoc]
  have h2 : ffillFrom (some v) (List.replicate k none) = List.replicate k (some v) := by
    simpa [ffillFrom] using ffillFrom_replicate_none_append k (some v) []
  unfold bfill
  rw [hrev, ffillFrom_somes_mid, h2]
  simp [List.reverse_append, List.reverse_cons, List.map_reverse, List.append_assoc]

/-- Shape of a rolling indicator over a window long enough to contain
at least one full lookback: an undefined prefix of length
`timeperiod - 1` followed by the computed means. -/
theorem SMA_shape (n : ℕ) (xs : List ℚ) (hn : 1 ≤ n) (hlen : n ≤ xs.length) :
    SMA n xs = List.replicate (n - 1) none
      ++ ((List.range (xs.length - (n - 1))).map
            fun j => ((xs.take (n + j)).drop j).sum / n).map some := by
  unfold SMA
  conv_lhs => rw [show xs.length = (n - 1) + (xs.length - (n - 1)) by omega]
  rw [List.range_add, List.map_append, List.map_map, List.map_map]
  congr 1
  · rw [List.eq_replicate_iff]
    refine ⟨by simp, ?_⟩
    intro b hb
    simp only [List.mem_map, List.mem_range] at hb
    obtain ⟨i, hi, hfi⟩ := hb
    rw [← hfi, if_neg (by omega)]
  · apply List.map_congr_left
    intro j hj
    simp only [Function.comp]
    rw [if_pos (by omega)]
    rw [show n - 1 + j + 1 = n + j by omega, show n + j - n = j by omega]

/-! ## Claim theorems -/

/-- C1 (amended): after any sequence of ticks of the game driver
(folding `execute_game_logic`, which runs either the recovery override
or `evaluate_orders`), the account state satisfies the invariants: the
cash balance stays nonnegative, the asset holdings stay nonnegative,
and the holdings are strictly positive exactly when the position state
is LONG.  The invariant does not extend to every trade committed
through the strategy: the live loop calls `buy_position` with a stale
`trade_amount` and can drive the cash balance negative (see the
counterexample). -/
theorem game_run_account_invariants (sb : ℚ) (s : MicroState) (ts : List GameTick)
    (hb : 0 ≤ s.balance) (hh : 0 ≤ s.btc_holdings) (hf : s.fee ≤ 1) :
    0 ≤ (game_run sb s ts).balance ∧
      0 ≤ (game_run sb s ts).btc_holdings ∧
      (0 < (game_run sb s ts).btc_holdings ↔
        position_state (game_run sb s ts) = .LONG) := by
  induction ts generalizing s with
  | nil => exact ⟨hb, hh, (position_state_eq_LONG_iff _).symm⟩
  | cons t ts ih =>
    have hstep := execute_game_logic_invariant sb s t hb hh hf
    have hrw : game_run sb s (t :: ts) = game_run sb (execute_game_logic sb s t).1 ts := rfl
    rw [hrw]
    exact ih _ hstep.1 hstep.2.1 (by rw [hstep.2.2]; exact hf)

/-- Witness for C1: a $100 session with one buy tick at price 50. -/
theorem game_run_account_invariants_witness :
    0 ≤ (⟨100, 0, 95, 0, 1 / 1000⟩ : MicroState).balance ∧
      0 ≤ (⟨100, 0, 95, 0, 1 / 1000⟩ : MicroState).btc_holdings ∧
      (⟨100, 0, 95, 0, 1 / 1000⟩ : MicroState).fee ≤ 1 ∧
      (0 ≤ (game_run 100 ⟨100, 0, 95, 0, 1 / 1000⟩ [⟨50, true, false⟩]).balance ∧
        0 ≤ (game_run 100 ⟨100, 0, 95, 0, 1 / 1000⟩ [⟨50, true, false⟩]).btc_holdings ∧
        (0 < (game_run 100 ⟨100, 0, 95, 0, 1 / 1000⟩ [⟨50, true, false⟩]).btc_holdings ↔
          position_state (game_run 100 ⟨100, 0, 95, 0, 1 / 1000⟩ [⟨50, true, false⟩]) = .LONG)) :=
  ⟨by norm_num, by norm_num, by norm_num,
    game_run_account_invariants 100 ⟨100, 0, 95, 0, 1 / 1000⟩ [⟨50, true, false⟩]
      (by norm_num) (by norm_num) (by norm_num)⟩

/-- Counterexample for C1 as frozen: not every sequence of buys
committed through the strategy keeps the cash balance nonnegative.  In
the live loop a $1000 session buys on the first tick; on the second
tick `_execute_buy` commits `strategy.buy_position` again with the
stale `trade_amount` of 950 against the remaining $50, and the
committed trade leaves the strategy's cash balance at -900 < 0. -/
theorem live_session_negative_cash_balance :
    (live_step (live_step pyramidingState pyramidingTick).1 pyramidingTick).2
        = .traded (.buy (18981 / 2000) 100) ∧
      (live_step (live_step pyramidingState pyramidingTick).1
          pyramidingTick).1.strategy.balance = -900 ∧
      ¬ (0 : ℚ) ≤ (live_step (live_step pyramidingState pyramidingTick).1
          pyramidingTick).1.strategy.balance := by
  norm_num [live_step, pyramidingState, pyramidingTick, check_risk_limits, execute_buy,
    execute_sell, buy_position, sell_position]

/-- C3: the `open_long` entry signal of `populate_signals` holds on a
row exactly when at least one of the five spec disjuncts holds, and in
particular any row with fast MA 12, slow MA 8 and RSI 40 produces an
entry signal. -/
theorem open_long_matches_spec (r : IndRow) :
    (open_long_signal r = true ↔ open_long_spec r) ∧
      (r.fastMA = 12 → r.slowMA = 8 → r.RSI = 40 → open_long_signal r = true) := by
  constructor
  · unfold open_long_signal open_long_spec
    simp only [Bool.or_eq_true, Bool.and_eq_true, decide_eq_true_eq]
    constructor
    · intro h
      rcases h with ((((⟨a, b⟩ | ⟨a, b⟩) | ⟨a, b⟩) | ⟨a, b⟩) | ⟨a, b⟩)
      · exact Or.inl ⟨a, b⟩
      · exact Or.inr (Or.inl ⟨a, b⟩)
      · exact Or.inr (Or.inr (Or.inl ⟨a, b⟩))
      · exact Or.inr (Or.inr (Or.inr (Or.inl ⟨a, b⟩)))
      · exact Or.inr (Or.inr (Or.inr (Or.inr ⟨a, b⟩)))
    · intro h
      rcases h with ⟨a, b⟩ | ⟨a, b⟩ | ⟨a, b⟩ | ⟨a, b⟩ | ⟨a, b⟩
      · exact Or.inl (Or.inl (Or.inl (Or.inl ⟨a, b⟩)))
      · exact Or.inl (Or.inl (Or.inl (Or.inr ⟨a, b⟩)))
      · exact Or.inl (Or.inl (Or.inr ⟨a, b⟩))
      · exact Or.inl (Or.inr ⟨a, b⟩)
      · exact Or.inr ⟨a, b⟩
  · intro h1 h2 h3
    unfold open_long_signal
    rw [h1, h2, h3]
    simp only [Bool.or_eq_true, Bool.and_eq_true, decide_eq_true_eq]
    exact Or.inl (Or.inl (Or.inl (Or.inl ⟨by norm_num, by norm_num⟩)))

/-- Witness for C3: a fully concrete indicator row with fast MA 12,
slow MA 8 and RSI 40 triggers the entry signal. -/
theorem open_long_matches_spec_witness :
    (⟨100, 12, 8, 40, 0, 0, 110, 100, 90, 50, 50⟩ : IndRow).fastMA = 12 ∧
      (⟨100, 12, 8, 40, 0, 0, 110, 100, 90, 50, 50⟩ : IndRow).slowMA = 8 ∧
      (⟨100, 12, 8, 40, 0, 0, 110, 100, 90, 50, 50⟩ : IndRow).RSI = 40 ∧
      open_long_signal ⟨100, 12, 8, 40, 0, 0, 110, 100, 90, 50, 50⟩ = true :=
  ⟨rfl, rfl, rfl,
    (open_long_matches_spec ⟨100, 12, 8, 40, 0, 0, 110, 100, 90, 50, 50⟩).2 rfl rfl rfl⟩

/-- C7: a buy attempted with non-positive balance or non-positive price
and a sell attempted with zero holdings are rejected: the account state
is returned unchanged and no trade is reported. -/
theorem rejected_orders_leave_state_unchanged (s : MicroState) (price : ℚ) :
    (s.balance ≤ 0 ∨ price ≤ 0 → buy_position s price = (s, none)) ∧
      (s.btc_holdings = 0 → sell_position s price = (s, none)) := by
  constructor
  · intro h
    unfold buy_position
    rw [if_pos h]
  · intro h
    unfold sell_position
    rw [if_pos (Or.inl (le_of_eq h))]

/-- Witness for C7: a buy with zero balance and a sell with zero
holdings, both at price 5, leave the state untouched. -/
theorem rejected_orders_leave_state_unchanged_witness :
    ((⟨0, 0, 0, 0, 1 / 1000⟩ : MicroState).balance ≤ 0 ∨ (5 : ℚ) ≤ 0) ∧
      (⟨0, 0, 0, 0, 1 / 1000⟩ : MicroState).btc_holdings = 0 ∧
      buy_position ⟨0, 0, 0, 0, 1 / 1000⟩ 5 = (⟨0, 0, 0, 0, 1 / 1000⟩, none) ∧
      sell_position ⟨0, 0, 0, 0, 1 / 1000⟩ 5 = (⟨0, 0, 0, 0, 1 / 1000⟩, none) :=
  ⟨Or.inl (by norm_num), by norm_num,
    (rejected_orders_leave_state_unchanged ⟨0, 0, 0, 0, 1 / 1000⟩ 5).1 (Or.inl (by norm_num)),
    (rejected_orders_leave_state_unchanged ⟨0, 0, 0, 0, 1 / 1000⟩ 5).2 (by norm_num)⟩

/-- C2 (amended): with an open position, a recorded entry price and a
positive close, a close at or above entry times 1.025 (take-profit) or
at or below entry times 0.985 (stop-loss) makes `evaluate_orders` sell
the entire holding at the close: holdings drop to zero, cash grows by
exactly holdings times price times (1 minus fee), the position becomes
FLAT — and the recorded entry price is left unchanged rather than
cleared. -/
theorem tp_sl_exit_liquidates (s : MicroState) (row : Row)
    (hh : 0 < s.btc_holdings) (he : 0 < s.last_buy_price) (hp : 0 < row.close)
    (hcond : s.last_buy_price * take_profit_threshold ≤ row.close ∨
             row.close ≤ s.last_buy_price * stop_loss_threshold) :
    (evaluate_orders s row).1.btc_holdings = 0 ∧
      (evaluate_orders s row).1.balance
        = s.balance + s.btc_holdings * row.close * (1 - s.fee) ∧
      (evaluate_orders s row).1.last_buy_price = s.last_buy_price ∧
      position_state (evaluate_orders s row).1 = .FLAT ∧
      (evaluate_orders s row).2 = [.sell s.btc_holdings row.close] := by
  have hsellok : ¬ (s.btc_holdings ≤ 0 ∨ row.close ≤ 0) := by
    push_neg
    exact ⟨hh, hp⟩
  unfold evaluate_orders sell_position
  dsimp only
  rw [if_pos hh, if_pos he]
  rcases hcond with htp | hsl
  · rw [if_pos htp, if_neg hsellok]
    refine ⟨rfl, rfl, rfl, ?_, ?_⟩
    · unfold position_state
      rw [if_neg (by norm_num)]
    · simp [Option.toList]
  · have hnotp : ¬ s.last_buy_price * take_profit_threshold ≤ row.close := by
      unfold take_profit_threshold stop_loss_threshold at *
      nlinarith
    rw [if_neg hnotp, if_pos hsl, if_neg hsellok]
    refine ⟨rfl, rfl, rfl, ?_, ?_⟩
    · unfold position_state
      rw [if_neg (by norm_num)]
    · simp [Option.toList]

/-- Witness for C2: a position of 2 BTC entered at 100 exits at close
102.5 (the take-profit boundary). -/
theorem tp_sl_exit_liquidates_witness :
    0 < (⟨10, 2, 0, 100, 1 / 1000⟩ : MicroState).btc_holdings ∧
      0 < (⟨10, 2, 0, 100, 1 / 1000⟩ : MicroState).last_buy_price ∧
      0 < (⟨1025 / 10, false, false⟩ : Row).close ∧
      ((100 : ℚ) * take_profit_threshold ≤ 1025 / 10 ∨
        (1025 / 10 : ℚ) ≤ 100 * stop_loss_threshold) ∧
      ((evaluate_orders ⟨10, 2, 0, 100, 1 / 1000⟩ ⟨1025 / 10, false, false⟩).1.btc_holdings = 0 ∧
        (evaluate_orders ⟨10, 2, 0, 100, 1 / 1000⟩ ⟨1025 / 10, false, false⟩).1.balance
          = 10 + 2 * (1025 / 10) * (1 - 1 / 1000) ∧
        (evaluate_orders ⟨10, 2, 0, 100, 1 / 1000⟩ ⟨1025 / 10, false, false⟩).1.last_buy_price
          = 100 ∧
        position_state (evaluate_orders ⟨10, 2, 0, 100, 1 / 1000⟩ ⟨1025 / 10, false, false⟩).1
          = .FLAT ∧
        (evaluate_orders ⟨10, 2, 0, 100, 1 / 1000⟩ ⟨1025 / 10, false, false⟩).2
          = [.sell 2 (1025 / 10)]) :=
  ⟨by norm_num, by norm_num, by norm_num,
    Or.inl (by norm_num [take_profit_threshold]),
    tp_sl_exit_liquidates ⟨10, 2, 0, 100, 1 / 1000⟩ ⟨1025 / 10, false, false⟩
      (by norm_num) (by norm_num) (by norm_num)
      (Or.inl (by norm_num [take_profit_threshold]))⟩

/-- Counterexample for C2 as frozen: a take-profit exit from a position
of 1 BTC entered at 100 at close 102.5 liquidates the holding and
credits the fee-adjusted proceeds, but the recorded entry price stays
100 — `sell_position` never clears `last_buy_price`, so the claim that
the exit "clears the recorded entry price" fails. -/
theorem tp_exit_entry_price_not_cleared :
    (evaluate_orders ⟨0, 1, 0, 100, 1 / 1000⟩ ⟨1025 / 10, false, false⟩).1.btc_holdings = 0 ∧
      (evaluate_orders ⟨0, 1, 0, 100, 1 / 1000⟩ ⟨1025 / 10, false, false⟩).1.balance
        = 0 + 1 * (1025 / 10) * (1 - 1 / 1000) ∧
      ¬ (evaluate_orders ⟨0, 1, 0, 100, 1 / 1000⟩ ⟨1025 / 10, false, false⟩).1.last_buy_price
          = 0 := by
  norm_num [evaluate_orders, sell_position, take_profit_threshold, stop_loss_threshold]

/-- C4: before any trading, the live loop rejects the tick and pauses
whenever the daily trade count has reached the configured maximum or
the drawdown from the session-start balance is at or below minus the
configured maximum percentage (equality included); a paused iteration
leaves the state untouched and the loop proceeds to the next cycle
instead of exiting, and once the risk check passes again the iteration
is no longer paused. -/
theorem live_risk_gating (s : LiveState) (t : LiveTick) (rest : List LiveTick) :
    (s.max_daily_trades ≤ s.trades_today → live_step s t = (s, .paused)) ∧
      ((t.exchange_balance / s.start_balance - 1) * 100 ≤ -|s.max_daily_drawdown_percent| →
        live_step s t = (s, .paused)) ∧
      ((live_step s t).2 = .paused →
        (live_step s t).1 = s ∧ live_run s (t :: rest) = live_run s rest) ∧
      (check_risk_limits s t.exchange_balance = true → (live_step s t).2 ≠ .paused) := by
  have hc1 : s.max_daily_trades ≤ s.trades_today →
      check_risk_limits s t.exchange_balance = false := by
    intro h
    unfold check_risk_limits
    rw [if_pos h]
  have hc2 : (t.exchange_balance / s.start_balance - 1) * 100 ≤ -|s.max_daily_drawdown_percent| →
      check_risk_limits s t.exchange_balance = false := by
    intro h
    unfold check_risk_limits
    split_ifs
    · rfl
    · rfl
  refine ⟨fun h => live_step_of_check_false s t (hc1 h),
    fun h => live_step_of_check_false s t (hc2 h), ?_,
    live_step_not_paused_of_check_true s t⟩
  intro hpaused
  have hcf : check_risk_limits s t.exchange_balance = false := by
    cases hcc : check_risk_limits s t.exchange_balance
    · rfl
    · exact absurd hpaused (live_step_not_paused_of_check_true s t hcc)
  have hstep := live_step_of_check_false s t hcf
  constructor
  · rw [hstep]
  · show List.foldl (fun st tk => (live_step st tk).1) s (t :: rest)
        = List.foldl (fun st tk => (live_step st tk).1) s rest
    rw [List.foldl_cons, hstep]

/-- Witness for C4: a session at its trade limit pauses, a drawdown of
exactly -5% on a 5% limit pauses without touching the state, and a
healthy session does not pause. -/
theorem live_risk_gating_witness :
    ((⟨⟨100, 0, 95, 0, 1 / 1000⟩, 5, 5, 100, 5, true⟩ : LiveState).max_daily_trades
        ≤ (⟨⟨100, 0, 95, 0, 1 / 1000⟩, 5, 5, 100, 5, true⟩ : LiveState).trades_today ∧
      live_step ⟨⟨100, 0, 95, 0, 1 / 1000⟩, 5, 5, 100, 5, true⟩ ⟨100, some 100, true, false, true⟩
        = (⟨⟨100, 0, 95, 0, 1 / 1000⟩, 5, 5, 100, 5, true⟩, .paused)) ∧
      (((95 : ℚ) / 100 - 1) * 100 ≤ -|(5 : ℚ)| ∧
        live_step ⟨⟨100, 0, 95, 0, 1 / 1000⟩, 0, 5, 100, 5, true⟩ ⟨95, some 100, false, false, true⟩
          = (⟨⟨100, 0, 95, 0, 1 / 1000⟩, 0, 5, 100, 5, true⟩, .paused)) ∧
      ((live_step ⟨⟨100, 0, 95, 0, 1 / 1000⟩, 5, 5, 100, 5, true⟩
            ⟨100, some 100, true, false, true⟩).2 = .paused ∧
        (live_step ⟨⟨100, 0, 95, 0, 1 / 1000⟩, 5, 5, 100, 5, true⟩
            ⟨100, some 100, true, false, true⟩).1
          = ⟨⟨100, 0, 95, 0, 1 / 1000⟩, 5, 5, 100, 5, true⟩ ∧
        live_run ⟨⟨100, 0, 95, 0, 1 / 1000⟩, 5, 5, 100, 5, true⟩
            [⟨100, some 100, true, false, true⟩]
          = live_run ⟨⟨100, 0, 95, 0, 1 / 1000⟩, 5, 5, 100, 5, true⟩ []) ∧
      (check_risk_limits ⟨⟨100, 0, 95, 0, 1 / 1000⟩, 0, 5, 100, 5, true⟩ 100 = true ∧
        (live_step ⟨⟨100, 0, 95, 0, 1 / 1000⟩, 0, 5, 100, 5, true⟩
            ⟨100, some 100, false, false, true⟩).2 ≠ .paused) := by
  have hpause : (live_step ⟨⟨100, 0, 95, 0, 1 / 1000⟩, 5, 5, 100, 5, true⟩
      ⟨100, some 100, true, false, true⟩).2 = .paused := by
    norm_num [live_step, check_risk_limits]
  have hchk : check_risk_limits ⟨⟨100, 0, 95, 0, 1 / 1000⟩, 0, 5, 100, 5, true⟩ 100 = true := by
    norm_num [check_risk_limits]
  refine ⟨⟨le_refl 5, (live_risk_gating _ ⟨100, some 100, true, false, true⟩ []).1 (le_refl 5)⟩,
    ⟨by norm_num, (live_risk_gating _ ⟨95, some 100, false, false, true⟩ []).2.1 (by norm_num)⟩,
    ⟨hpause, ?_, ?_⟩, hchk,
    (live_risk_gating _ ⟨100, some 100, false, false, true⟩ []).2.2.2 hchk⟩
  · exact ((live_risk_gating _ ⟨100, some 100, true, false, true⟩ []).2.2.1 hpause).1
  · exact ((live_risk_gating _ ⟨100, some 100, true, false, true⟩ []).2.2.1 hpause).2

/-- C5: when the running balance has fallen below 95% of the
session-start balance, the game tick ignores the signal booleans
entirely; an open position is force-sold at
max(price, entry times 1.03) — a price at least 3% above the recorded
entry — liquidating the whole holding, and a flat account holding at
least the $10 floor force-buys 95% of the cash at the current price. -/
theorem recovery_policy_overrides (sb : ℚ) (s : MicroState) (t : GameTick)
    (hdd : s.balance < sb * (95 / 100)) :
    (∀ o c : Bool, execute_game_logic sb s t
        = execute_game_logic sb s ⟨t.btc_price, o, c⟩) ∧
      (0 < s.btc_holdings → 0 < t.btc_price →
        ((execute_game_logic sb s t).1.btc_holdings = 0 ∧
          (execute_game_logic sb s t).1.balance
            = s.balance
              + s.btc_holdings * max t.btc_price (s.last_buy_price * (103 / 100))
                * (1 - s.fee) ∧
          s.last_buy_price * (103 / 100) ≤ max t.btc_price (s.last_buy_price * (103 / 100)) ∧
          (execute_game_logic sb s t).2
            = [.sell s.btc_holdings (max t.btc_price (s.last_buy_price * (103 / 100)))])) ∧
      (¬ 0 < s.btc_holdings → 10 ≤ s.balance → 0 < t.btc_price →
        ((execute_game_logic sb s t).1.balance = s.balance - s.balance * (95 / 100) ∧
          (execute_game_logic sb s t).1.btc_holdings
            = s.btc_holdings + s.balance * (95 / 100) / t.btc_price * (1 - s.fee) ∧
          (execute_game_logic sb s t).1.last_buy_price = t.btc_price ∧
          (execute_game_logic sb s t).2
            = [.buy (s.balance * (95 / 100) / t.btc_price * (1 - s.fee)) t.btc_price])) := by
  refine ⟨?_, ?_, ?_⟩
  · intro o c
    simp only [execute_game_logic, if_pos hdd]
  · intro hh hp
    have hsellok : ¬ (s.btc_holdings ≤ 0
        ∨ max t.btc_price (s.last_buy_price * (103 / 100)) ≤ 0) := by
      push_neg
      exact ⟨hh, lt_of_lt_of_le hp (le_max_left _ _)⟩
    unfold execute_game_logic sell_position
    dsimp only
    rw [if_pos hdd, if_pos hh, if_neg hsellok]
    exact ⟨rfl, rfl, le_max_right _ _, by simp [Option.toList]⟩
  · intro hh hfloor hp
    have hbuyok : ¬ (s.balance ≤ 0 ∨ t.btc_price ≤ 0) := by
      push_neg
      constructor <;> linarith
    unfold execute_game_logic buy_position
    dsimp only
    rw [if_pos hdd, if_neg hh, if_pos hfloor, if_neg hbuyok]
    exact ⟨rfl, rfl, rfl, by simp [Option.toList]⟩

/-- Witness for C5: with $50 of a $100 start, recovery force-sells 2
BTC entered at 30 at max(20, 30.9) and, when flat, force-buys 95% of
the cash at price 20. -/
theorem recovery_policy_overrides_witness :
    (⟨50, 2, 95 / 2, 30, 1 / 1000⟩ : MicroState).balance < 100 * (95 / 100) ∧
      execute_game_logic 100 ⟨50, 2, 95 / 2, 30, 1 / 1000⟩ ⟨20, false, false⟩
        = execute_game_logic 100 ⟨50, 2, 95 / 2, 30, 1 / 1000⟩ ⟨20, true, true⟩ ∧
      ((execute_game_logic 100 ⟨50, 2, 95 / 2, 30, 1 / 1000⟩ ⟨20, false, false⟩).1.btc_holdings
          = 0 ∧
        (execute_game_logic 100 ⟨50, 2, 95 / 2, 30, 1 / 1000⟩ ⟨20, false, false⟩).1.balance
          = 50 + 2 * max 20 (30 * (103 / 100)) * (1 - 1 / 1000) ∧
        (30 : ℚ) * (103 / 100) ≤ max 20 (30 * (103 / 100)) ∧
        (execute_game_logic 100 ⟨50, 2, 95 / 2, 30, 1 / 1000⟩ ⟨20, false, false⟩).2
          = [.sell 2 (max 20 (30 * (103 / 100)))]) ∧
      ((execute_game_logic 100 ⟨50, 0, 95 / 2, 0, 1 / 1000⟩ ⟨20, true, false⟩).1.balance
          = 50 - 50 * (95 / 100) ∧
        (execute_game_logic 100 ⟨50, 0, 95 / 2, 0, 1 / 1000⟩ ⟨20, true, false⟩).1.btc_holdings
          = 0 + 50 * (95 / 100) / 20 * (1 - 1 / 1000) ∧
        (execute_game_logic 100 ⟨50, 0, 95 / 2, 0, 1 / 1000⟩ ⟨20, true, false⟩).1.last_buy_price
          = 20 ∧
        (execute_game_logic 100 ⟨50, 0, 95 / 2, 0, 1 / 1000⟩ ⟨20, true, false⟩).2
          = [.buy (50 * (95 / 100) / 20 * (1 - 1 / 1000)) 20]) :=
  ⟨by norm_num,
    (recovery_policy_overrides 100 ⟨50, 2, 95 / 2, 30, 1 / 1000⟩ ⟨20, false, false⟩
      (by norm_num)).1 true true,
    (recovery_policy_overrides 100 ⟨50, 2, 95 / 2, 30, 1 / 1000⟩ ⟨20, false, false⟩
      (by norm_num)).2.1 (by norm_num) (by norm_num),
    (recovery_policy_overrides 100 ⟨50, 0, 95 / 2, 0, 1 / 1000⟩ ⟨20, true, false⟩
      (by norm_num)).2.2 (by norm_num) (by norm_num) (by norm_num)⟩

/-- C6: from a FLAT state with an entry signal, a balance at or above
the $10 floor and a positive price, `evaluate_orders` commits a buy of
95% of the cash: the balance drops by the trade amount, the holdings
grow by trade amount over price times (1 minus fee), the entry price is
recorded as the fill price, and exactly that buy is reported. -/
theorem flat_entry_commits_buy (s : MicroState) (row : Row)
    (hflat : position_state s = .FLAT) (hsig : row.open_long = true)
    (hfloor : 10 ≤ s.balance) (hp : 0 < row.close) :
    (evaluate_orders s row).1.balance = s.balance - s.balance * (95 / 100) ∧
      (evaluate_orders s row).1.btc_holdings
        = s.btc_holdings + s.balance * (95 / 100) / row.close * (1 - s.fee) ∧
      (evaluate_orders s row).1.last_buy_price = row.close ∧
      (evaluate_orders s row).2
        = [.buy (s.balance * (95 / 100) / row.close * (1 - s.fee)) row.close] := by
  have hnot : ¬ 0 < s.btc_holdings := by
    intro h
    unfold position_state at hflat
    rw [if_pos h] at hflat
    cases hflat
  have hmin : min (s.balance * (95 / 100)) s.balance = s.balance * (95 / 100) :=
    min_eq_left (by linarith)
  have hbal : ¬ (s.balance ≤ 0 ∨ row.close ≤ 0) := by
    push_neg
    constructor <;> linarith
  unfold evaluate_orders buy_position
  dsimp only
  rw [if_neg hnot, if_pos ⟨hfloor, hsig⟩, hmin, if_neg hbal]
  refine ⟨rfl, rfl, rfl, ?_⟩
  simp [Option.toList]

/-- Witness for C6: a flat $100 account with an entry signal at price
50 buys $95 worth. -/
theorem flat_entry_commits_buy_witness :
    position_state ⟨100, 0, 95, 0, 1 / 1000⟩ = .FLAT ∧
      (⟨50, true, false⟩ : Row).open_long = true ∧
      (10 : ℚ) ≤ 100 ∧ (0 : ℚ) < 50 ∧
      ((evaluate_orders ⟨100, 0, 95, 0, 1 / 1000⟩ ⟨50, true, false⟩).1.balance
          = 100 - 100 * (95 / 100) ∧
        (evaluate_orders ⟨100, 0, 95, 0, 1 / 1000⟩ ⟨50, true, false⟩).1.btc_holdings
          = 0 + 100 * (95 / 100) / 50 * (1 - 1 / 1000) ∧
        (evaluate_orders ⟨100, 0, 95, 0, 1 / 1000⟩ ⟨50, true, false⟩).1.last_buy_price = 50 ∧
        (evaluate_orders ⟨100, 0, 95, 0, 1 / 1000⟩ ⟨50, true, false⟩).2
          = [.buy (100 * (95 / 100) / 50 * (1 - 1 / 1000)) 50]) :=
  ⟨by norm_num [position_state], rfl, by norm_num, by norm_num,
    flat_entry_commits_buy ⟨100, 0, 95, 0, 1 / 1000⟩ ⟨50, true, false⟩
      (by norm_num [position_state]) rfl (by norm_num) (by norm_num)⟩

/-- C8 (amended): whenever the candle window is long enough to contain
at least one full lookback period, the filled indicator column is
everywhere defined and every position before the first full lookback
equals the first-available computed value after backfill; a window
shorter than the lookback has no computed value at all and stays
undefined (see the counterexample). -/
theorem backfilled_indicator_covers (n : ℕ) (closes : List ℚ)
    (hn : 1 ≤ n) (hlen : n ≤ closes.length) :
    (∀ v ∈ backfilled_indicator n closes, v.isSome = true) ∧
      ∀ i < n - 1, (backfilled_indicator n closes)[i]?
          = some (some ((closes.take n).sum / n)) := by
  have hm : closes.length - (n - 1) = (closes.length - n) + 1 := by omega
  have hshape := SMA_shape n closes hn hlen
  rw [hm, List.range_succ_eq_map, List.map_cons] at hshape
  simp only [Nat.add_zero, List.drop_zero] at hshape
  have hbf : backfilled_indicator n closes
      = List.replicate (n - 1) (some ((closes.take n).sum / n))
        ++ (((closes.take n).sum / n)
            :: ((List.range (closes.length - n)).map Nat.succ).map
                (fun j => ((closes.take (n + j)).drop j).sum / n)).map some := by
    unfold backfilled_indicator
    rw [hshape, ffill_replicate_none_somes, bfill_replicate_none_somes]
  constructor
  · intro v hv
    rw [hbf] at hv
    rcases List.mem_append.mp hv with h | h
    · rw [List.eq_of_mem_replicate h]
      rfl
    · obtain ⟨w, _, rfl⟩ := List.mem_map.mp h
      rfl
  · intro i hi
    rw [hbf, List.getElem?_append, if_pos (by simpa using hi), List.getElem?_replicate,
      if_pos hi]

/-- Witness for C8: with a 2-period lookback over the window [1, 2, 3],
the position before the first full lookback carries the first computed
mean (3/2). -/
theorem backfilled_indicator_covers_witness :
    1 ≤ 2 ∧ 2 ≤ ([1, 2, 3] : List ℚ).length ∧ 0 < 2 - 1 ∧
      (backfilled_indicator 2 [1, 2, 3])[0]?
        = some (some ((([1, 2, 3] : List ℚ).take 2).sum / 2)) :=
  ⟨by norm_num, by norm_num, by norm_num,
    (backfilled_indicator_covers 2 [1, 2, 3] (by norm_num) (by norm_num)).2 0 (by norm_num)⟩

/-- Counterexample for C8 as frozen: a 2-candle window with the default
12-period slow-MA lookback has no computed value anywhere, so forward
and backward fill leave every entry undefined — an undefined (NaN)
indicator value does reach signal evaluation, and no "first-available
computed value" exists. -/
theorem short_window_indicator_stays_undefined :
    backfilled_indicator 12 [1, 2] = [none, none] ∧
      none ∈ backfilled_indicator 12 [1, 2] := by
  norm_num [backfilled_indicator, SMA, ffill, bfill, ffillFrom, List.range_succ]

/-- C9 (amended): the strategy's own order evaluation commits a buy
only from a FLAT position — but this does not extend to the live
trading loop, which can commit a buy while a position is already open
(see the counterexample). -/
theorem micro_buy_trades_only_when_flat (s : MicroState) (row : Row) (t : Trade)
    (hmem : t ∈ (evaluate_orders s row).2) (hbuy : t.isBuy = true) :
    position_state s = .FLAT := by
  unfold position_state
  split_ifs with hpos
  · exfalso
    have hsell := sell_position_trades_isSell
      { s with trade_amount := min (s.balance * (95 / 100)) s.balance } row.close
    revert hmem
    unfold evaluate_orders
    dsimp only
    split_ifs <;> intro hmem
    all_goals
      first
        | (exact absurd (hsell t hmem) (by cases t <;> simp_all [Trade.isBuy, Trade.isSell]))
        | simp at hmem
  · rfl

/-- Witness for C9: the buy the strategy commits from a flat $400
account at price 80 certifies that the committing state was FLAT. -/
theorem micro_buy_trades_only_when_flat_witness :
    (Trade.buy (400 * (95 / 100) / 80 * (1 - 1 / 1000)) 80)
        ∈ (evaluate_orders ⟨400, 0, 380, 0, 1 / 1000⟩ ⟨80, true, false⟩).2 ∧
      (Trade.buy (400 * (95 / 100) / 80 * (1 - 1 / 1000)) 80).isBuy = true ∧
      position_state ⟨400, 0, 380, 0, 1 / 1000⟩ = .FLAT := by
  have hmem : (Trade.buy (400 * (95 / 100) / 80 * (1 - 1 / 1000)) 80)
      ∈ (evaluate_orders ⟨400, 0, 380, 0, 1 / 1000⟩ ⟨80, true, false⟩).2 := by
    norm_num [evaluate_orders, buy_position, Option.toList]
  exact ⟨hmem, rfl,
    micro_buy_trades_only_when_flat ⟨400, 0, 380, 0, 1 / 1000⟩ ⟨80, true, false⟩ _ hmem rfl⟩

/-- Counterexample for C9 as frozen: in the live trading loop a $1000
session buys at price 100 on the first tick, is LONG on the second tick
and — because the entry branch checks only the balance and the buy
signal — commits another buy while the position is still open, even
driving the cash balance to -900. -/
theorem live_loop_buys_while_long :
    0 < (live_step pyramidingState pyramidingTick).1.strategy.btc_holdings ∧
      (live_step (live_step pyramidingState pyramidingTick).1 pyramidingTick).2
        = .traded (.buy (18981 / 2000) 100) ∧
      (live_step (live_step pyramidingState pyramidingTick).1
          pyramidingTick).1.strategy.balance = -900 := by
  norm_num [live_step, pyramidingState, pyramidingTick, check_risk_limits, execute_buy,
    execute_sell, buy_position, sell_position]

/-- C10: a single call of `evaluate_orders` reports at most one trade;
while a position is open only the exit checks can fire (every reported
trade is a sell), and while flat only the entry check can fire (every
reported trade is a buy), so a sell and a buy never both occur in one
tick evaluation. -/
theorem evaluate_orders_at_most_one_order (s : MicroState) (row : Row) :
    (evaluate_orders s row).2.length ≤ 1 ∧
      (0 < s.btc_holdings → ∀ t ∈ (evaluate_orders s row).2, t.isSell = true) ∧
      (¬ 0 < s.btc_holdings → ∀ t ∈ (evaluate_orders s row).2, t.isBuy = true) := by
  have hsell := sell_position_trades_isSell
    { s with trade_amount := min (s.balance * (95 / 100)) s.balance } row.close
  have hbuy := buy_position_trades_isBuy
    { s with trade_amount := min (s.balance * (95 / 100)) s.balance } row.close
  refine ⟨?_, ?_, ?_⟩
  · unfold evaluate_orders
    dsimp only
    split_ifs <;> first | exact toList_length_le_one _ | simp
  · intro hpos t
    unfold evaluate_orders
    dsimp only
    split_ifs <;> intro ht <;>
      first
        | exact hsell t ht
        | simp at ht
  · intro hneg t
    unfold evaluate_orders
    dsimp only
    split_ifs <;> intro ht <;>
      first
        | exact hbuy t ht
        | simp at ht

/-- Witness for C10: on a LONG tick the reported trade is the sell, on
a flat tick the reported trade is the buy. -/
theorem evaluate_orders_at_most_one_order_witness :
    0 < (⟨0, 1, 0, 100, 1 / 1000⟩ : MicroState).btc_holdings ∧
      Trade.isSell (.sell 1 (1025 / 10)) = true ∧
      ¬ 0 < (⟨200, 0, 190, 0, 1 / 1000⟩ : MicroState).btc_holdings ∧
      Trade.isBuy (.buy (200 * (95 / 100) / 40 * (1 - 1 / 1000)) 40) = true := by
  have hm1 : (Trade.sell 1 (1025 / 10))
      ∈ (evaluate_orders ⟨0, 1, 0, 100, 1 / 1000⟩ ⟨1025 / 10, false, false⟩).2 := by
    norm_num [evaluate_orders, sell_position, take_profit_threshold, stop_loss_threshold,
      Option.toList]
  have hm2 : (Trade.buy (200 * (95 / 100) / 40 * (1 - 1 / 1000)) 40)
      ∈ (evaluate_orders ⟨200, 0, 190, 0, 1 / 1000⟩ ⟨40, true, false⟩).2 := by
    norm_num [evaluate_orders, buy_position, Option.toList]
  exact ⟨by norm_num,
    (evaluate_orders_at_most_one_order ⟨0, 1, 0, 100, 1 / 1000⟩
      ⟨1025 / 10, false, false⟩).2.1 (by norm_num) _ hm1,
    by norm_num,
    (evaluate_orders_at_most_one_order ⟨200, 0, 190, 0, 1 / 1000⟩
      ⟨40, true, false⟩).2.2 (by norm_num) _ hm2⟩

end Jewel
